import Mathlib

/-!
Verification development for the order-placement and inventory subsystem of a
food-ordering backend.  The definitions below are a shallow embedding of the
order model (`orderSchema` with its pre-save inventory/pricing hook) and of
`utils/dataAccess.js`.  Timestamps are integers counting milliseconds, JS
numbers on dishes and line items are integers, and the dish collection is a
map from dish id to dish document.
-/

namespace Gastronome

/-- A dish document as the order model's pre-save hook reads it
(`dish.name`, `dish.price`, `dish.inventory`).  The dish schema file is not
among the sources; per the data model a dish also carries an identifier,
which here is the key under which the dish is stored. -/
structure Dish where
  name : String
  price : Int
  inventory : Int
deriving DecidableEq

/-- The dish collection, keyed by dish id. -/
abbrev Store := Nat → Option Dish

/-- `Dish.findById(item.dish)` (order model, line 497). -/
def findById (s : Store) (i : Nat) : Option Dish := s i

/-- `dish.save({ validateBeforeSave: false })` (line 507): writes the
in-memory dish document back under its id. -/
def saveDish (s : Store) (i : Nat) (d : Dish) : Store :=
  fun j => if j = i then some d else s j

/-- One entry of `order.dishes`: `{ dish, quantity }` (schema lines 399-412).
The schema puts no minimum on `quantity` (a JS number, default 1), so the
embedding uses `Int`. -/
structure LineItem where
  dish : Nat
  quantity : Int
deriving DecidableEq

/-- State threaded through the pre-save hook's per-item work (lines 495-511):
the dish store, whether some item has reported failure via `next(err)`, the
accumulated `totalPrice`, and the trace of reservation operations
(decrement-and-save of one dish) performed, in execution order. -/
structure HookState where
  store : Store
  failed : Bool
  totalPrice : Int
  reserved : List (Nat × Int)

/-- The body of `this.dishes.map(async item => ...)` (lines 496-510) for one
line item: look the dish up; a missing dish or insufficient inventory reports
failure and performs nothing for this item; otherwise decrement, save, and add
`dish.price * item.quantity` to the running total.  `Promise.all` neither
stops nor undoes sibling items when one of them fails, so a failing item only
sets the failure flag and every other item still runs; the hook is embedded
as its in-order linearization. -/
def presaveStep (st : HookState) (item : LineItem) : HookState :=
  match findById st.store item.dish with
  | none => { st with failed := true }
  | some d =>
    if d.inventory < item.quantity then { st with failed := true }
    else
      { store := saveDish st.store item.dish { d with inventory := d.inventory - item.quantity }
        failed := st.failed
        totalPrice := st.totalPrice + d.price * item.quantity
        reserved := st.reserved ++ [(item.dish, item.quantity)] }

/-- The pre-save hook's inventory/pricing loop over `this.dishes`. -/
def runPresave (s : Store) (items : List LineItem) : HookState :=
  items.foldl presaveStep { store := s, failed := false, totalPrice := 0, reserved := [] }

/-- One hour in milliseconds (`setHours(getHours() + 1)`). -/
def hourMs : Int := 3600000

/-- One minute in milliseconds (`setMinutes(getMinutes() + 1)`). -/
def minuteMs : Int := 60000

/-- The schema default for `orderScheduled` (lines 418-424):
now + 1 hour + 1 minute. -/
def defaultScheduled (now : Int) : Int := now + hourMs + minuteMs

/-- The `orderScheduled` validator (lines 425-439): the scheduled time is
valid iff `oneHourLater <= value` and `value <= sixHoursLater`, both bounds
inclusive, computed from the current time. -/
def validateScheduled (now t : Int) : Bool :=
  decide (now + hourMs ≤ t) && decide (t ≤ now + 6 * hourMs)

/-- The caller-supplied part of a new order: the line items, the
self-collection flag, and an optional scheduled time (absent means the schema
default applies). -/
structure OrderInput where
  dishes : List LineItem
  isSelfCollection : Bool
  orderScheduled : Option Int
deriving DecidableEq

/-- A persisted order document (the fields the claims are about). -/
structure Order where
  dishes : List LineItem
  isSelfCollection : Bool
  orderScheduled : Int
  totalPrice : Int
  isItDone : Bool
deriving DecidableEq

/-- Saving a new order document.  Mongoose applies the schema default for
`orderScheduled`, runs the schema validators, and only then the user pre-save
hook: a validator failure aborts before the hook runs (no side effect on the
dish store), while a hook failure aborts the order save but leaves the dish
saves already performed in place — the hook contains no compensation.  On
success the hook adds the fixed delivery surcharge of 30 when the order is
not self-collection (lines 513-515) and stores the total on the order. -/
def placeOrder (now : Int) (s : Store) (inp : OrderInput) : Store × Option Order :=
  if validateScheduled now (inp.orderScheduled.getD (defaultScheduled now)) then
    if (runPresave s inp.dishes).failed then ((runPresave s inp.dishes).store, none)
    else
      ((runPresave s inp.dishes).store,
        some { dishes := inp.dishes
               isSelfCollection := inp.isSelfCollection
               orderScheduled := inp.orderScheduled.getD (defaultScheduled now)
               totalPrice := (runPresave s inp.dishes).totalPrice
                 + (if inp.isSelfCollection then 0 else 30)
               isItDone := false })
  else (s, none)

/-- The commit half of one reservation, exactly as lines 502-507 perform it:
the check and the decrement both use the caller's in-memory `dish` copy
obtained from its earlier `findById`, and the save writes that copy back.
Between a caller's read and its commit, other reservations may have written
the store. -/
def reserveCommit (s : Store) (i : Nat) (copy : Dish) (qty : Int) : Store × Bool :=
  if copy.inventory < qty then (s, false)
  else (saveDish s i { copy with inventory := copy.inventory - qty }, true)

/-- Modelled from the spec: `release(dishId, quantity)` (spec 4.1), the
compensating action that adds a reserved quantity back; the repository
sources contain no such operation.  Per the spec quantities are positive
integers, hence `Nat`. -/
def release (s : Store) (i : Nat) (qty : Nat) : Store :=
  match findById s i with
  | none => s
  | some d => saveDish s i { d with inventory := d.inventory + qty }

/-- One system operation touching dish inventory: an order placement (the
pre-save hook) or a compensating release. -/
inductive SysOp where
  | place (now : Int) (inp : OrderInput)
  | rel (i : Nat) (qty : Nat)

/-- Effect of one system operation on the dish store. -/
def applyOp (s : Store) : SysOp → Store
  | .place now inp => (placeOrder now s inp).1
  | .rel i qty => release s i qty

/-- Effect of a sequence of system operations on the dish store. -/
def runOps (s : Store) (ops : List SysOp) : Store := ops.foldl applyOp s

/-- The catalog price of dish `i` in store `s` (0 if the dish is absent; only
used where the dish exists). -/
def priceOf (s : Store) (i : Nat) : Int :=
  match findById s i with
  | some d => d.price
  | none => 0

/-- The specification's total formula: the sum over line items of
`dish.price * quantity`, with prices read in store `s`. -/
def lineItemsTotal (s : Store) : List LineItem → Int
  | [] => 0
  | item :: rest => priceOf s item.dish * item.quantity + lineItemsTotal s rest

/-- The order collection, keyed by order id. -/
abbrev OrderStore := Nat → Option Order

/-- `DataAccess.updateById` (dataAccess.js lines 67-77) specialised to
orders: `findByIdAndUpdate` applies the update data to the stored document
and returns the updated document, or reports not-found.  As query middleware
it runs no `save` hooks, so the pre-save inventory/pricing hook never
executes on this path; the update data is modelled as the field update it
performs. -/
def updateById (os : OrderStore) (i : Nat) (upd : Order → Order) :
    OrderStore × Option Order :=
  match os i with
  | none => (os, none)
  | some o => (fun j => if j = i then some (upd o) else os j, some (upd o))

/-- Modelled from the spec: the fulfillment collaborator's post-creation
order update (its controller is not among the sources) — per spec section 3
only the completion flag may change after creation, so it passes exactly
`isItDone` through `DataAccess.updateById`.  The dish store is carried
through unchanged: this code path performs no dish access at all. -/
def setCompletion (s : Store) (os : OrderStore) (i : Nat) (b : Bool) :
    Store × OrderStore × Option Order :=
  (s, updateById os i (fun o => { o with isItDone := b }))

/-- A created document as `DataAccess.create` (dataAccess.js lines 45-52)
post-processes it: `document.password` is a string or absent (`undefined`);
the other fields are irrelevant to the claims. -/
structure UserDoc where
  name : String
  email : String
  password : Option String
deriving DecidableEq

/-- JS truthiness of `document.password`: `undefined` and the empty string
are falsy, every other string is truthy. -/
def truthy : Option String → Bool
  | some str => decide (str ≠ "")
  | none => false

/-- The tail of `DataAccess.create`: `if (document.password)
document.password = undefined;` then return the document. -/
def create (doc : UserDoc) : UserDoc :=
  if truthy doc.password then { doc with password := none } else doc

/-! Concrete catalogs used by the concrete theorems below. -/

/-- A two-dish catalog: dish 0 = A (price 10, stock 10) and
dish 1 = B (price 5, stock 5). -/
def storeAB : Store := fun i =>
  if i = 0 then some { name := "A", price := 10, inventory := 10 }
  else if i = 1 then some { name := "B", price := 5, inventory := 5 }
  else none

/-- A one-dish catalog with a single unit of dish 0 in stock. -/
def storeA1 : Store := fun i =>
  if i = 0 then some { name := "A", price := 10, inventory := 1 } else none

/-- A two-dish catalog with prices 10 and 5 (the pricing example). -/
def storePrices : Store := fun i =>
  if i = 0 then some { name := "P", price := 10, inventory := 10 }
  else if i = 1 then some { name := "Q", price := 5, inventory := 10 }
  else none

/-- Claim C1, refuted on the code: for the order [(A,3),(B,1000)] against
the catalog where A has stock 10 and B has stock 5, the save fails (B's
stock is insufficient) — yet dish A, reserved before the failure, is left
decremented to 7: nothing releases the granted reservation, so the claimed
all-or-nothing behaviour does not hold. -/
theorem claim1_partial_decrement_bug :
    (placeOrder 0 storeAB
        { dishes := [⟨0, 3⟩, ⟨1, 1000⟩], isSelfCollection := true,
          orderScheduled := some (2 * hourMs) }).2 = none ∧
    findById storeAB 0 = some { name := "A", price := 10, inventory := 10 } ∧
    findById (placeOrder 0 storeAB
        { dishes := [⟨0, 3⟩, ⟨1, 1000⟩], isSelfCollection := true,
          orderScheduled := some (2 * hourMs) }).1 0
      = some { name := "A", price := 10, inventory := 7 } := by
  refine ⟨rfl, rfl, rfl⟩

/-- Claim C2, refuted on the code: the check and the decrement are separate
storage operations (`findById`, then `save` of the caller's copy), not one
indivisible operation.  With dish 0 holding a single unit, two concurrent
reservations of 1 unit that both read before either commits both succeed —
2 successes against capacity 1 — because each commit checks its own stale
copy.  (The spec's design notes, section 9, name exactly this read-then-write
lost-update hazard in the original code.) -/
theorem claim2_lost_update_bug :
    findById storeA1 0 = some { name := "A", price := 10, inventory := 1 } ∧
    (reserveCommit storeA1 0 { name := "A", price := 10, inventory := 1 } 1).2 = true ∧
    (reserveCommit (reserveCommit storeA1 0 { name := "A", price := 10, inventory := 1 } 1).1
        0 { name := "A", price := 10, inventory := 1 } 1).2 = true ∧
    findById (reserveCommit
        (reserveCommit storeA1 0 { name := "A", price := 10, inventory := 1 } 1).1
        0 { name := "A", price := 10, inventory := 1 } 1).1 0
      = some { name := "A", price := 10, inventory := 0 } := by
  refine ⟨rfl, rfl, rfl, rfl⟩

/-- Claim C5, refuted on the code: the hook maps over `this.dishes` entry by
entry and never merges duplicates, so submitting [(A,2),(A,3)] performs two
separate reservation operations of 2 and of 3 units of dish A, not one merged
reservation of 5. -/
theorem claim5_duplicate_entries_bug :
    (runPresave storeAB [⟨0, 2⟩, ⟨0, 3⟩]).failed = false ∧
    (runPresave storeAB [⟨0, 2⟩, ⟨0, 3⟩]).reserved = [(0, 2), (0, 3)] ∧
    (runPresave storeAB [⟨0, 2⟩, ⟨0, 3⟩]).reserved ≠ [(0, 5)] := by
  refine ⟨rfl, rfl, by decide⟩

/-- Claim C7, refuted on the code: neither the schema nor the hook rejects an
empty line-item list or a non-positive quantity.  An order with no line items
is accepted and persisted (with total 0 for self-collection), and an order
with quantity -2 for dish A passes the inventory check (`inventory < -2` is
false), is accepted, and as a side effect INCREASES A's stock from 10 to 12. -/
theorem claim7_validation_bug :
    (placeOrder 0 storeAB
        { dishes := [], isSelfCollection := true, orderScheduled := some (2 * hourMs) }).2
      = some { dishes := [], isSelfCollection := true, orderScheduled := 2 * hourMs,
               totalPrice := 0, isItDone := false } ∧
    ((placeOrder 0 storeAB
        { dishes := [⟨0, -2⟩], isSelfCollection := true,
          orderScheduled := some (2 * hourMs) }).2).isSome = true ∧
    findById (placeOrder 0 storeAB
        { dishes := [⟨0, -2⟩], isSelfCollection := true,
          orderScheduled := some (2 * hourMs) }).1 0
      = some { name := "A", price := 10, inventory := 12 } := by
  refine ⟨rfl, rfl, rfl⟩

/-- Claim C10 as stated, refuted on the code: `DataAccess.create` strips the
password with a truthiness test, so a created document whose password field
holds the empty string (a present field) is returned with the field still
present, not set to undefined. -/
theorem claim10_create_password_cex :
    UserDoc.password { name := "u", email := "e", password := some "" } ≠ none ∧
    create { name := "u", email := "e", password := some "" }
      = { name := "u", email := "e", password := some "" } ∧
    UserDoc.password (create { name := "u", email := "e", password := some "" }) ≠ none := by
  refine ⟨by decide, rfl, by decide⟩

/-- Claim C10 amended: for every created document whose password field holds
a non-empty string, `DataAccess.create` returns the document with the
password field set to undefined. -/
theorem claim10_create_password (d : UserDoc) (str : String)
    (h : d.password = some str) (hs : str ≠ "") :
    (create d).password = none := by
  unfold create truthy
  rw [h]
  simp [hs]

/-- Witness for the amended claim C10 at a concrete document carrying the
password "secret". -/
theorem claim10_create_password_witness :
    UserDoc.password { name := "u", email := "e", password := some "secret" }
      = some "secret" ∧
    ("secret" : String) ≠ "" ∧
    UserDoc.password (create { name := "u", email := "e", password := some "secret" })
      = none :=
  ⟨rfl, by decide,
    claim10_create_password { name := "u", email := "e", password := some "secret" }
      "secret" rfl (by decide)⟩

/-- Claim C4, confirmed: the validator accepts a scheduled time `t` exactly
when `now + 1h <= t <= now + 6h`, both bounds inclusive; in particular the
bounds themselves are accepted while one second outside either bound is
rejected. -/
theorem claim4_window_boundaries (now t : Int) :
    (validateScheduled now t = true ↔ now + hourMs ≤ t ∧ t ≤ now + 6 * hourMs) ∧
    validateScheduled now (now + hourMs) = true ∧
    validateScheduled now (now + 6 * hourMs) = true ∧
    validateScheduled now (now + hourMs - 1000) = false ∧
    validateScheduled now (now + 6 * hourMs + 1000) = false := by
  unfold validateScheduled hourMs
  refine ⟨?_, ?_, ?_, ?_, ?_⟩
  · simp
  · simp
  · simp
  · simp
  · simp

/-! Helper lemmas about the pre-save hook, used by the total-price and
non-negativity theorems: characterizations of one step, monotonicity of the
failure flag, and preservation of catalog prices across the loop. -/

/-- Characterization: a step whose dish lookup fails only sets the flag. -/
theorem presaveStep_notFound (st : HookState) (item : LineItem)
    (hd : findById st.store item.dish = none) :
    presaveStep st item = { st with failed := true } := by
  simp [presaveStep, hd]

/-- Characterization: a step with insufficient inventory only sets the flag. -/
theorem presaveStep_short (st : HookState) (item : LineItem) (d : Dish)
    (hd : findById st.store item.dish = some d) (hq : d.inventory < item.quantity) :
    presaveStep st item = { st with failed := true } := by
  simp [presaveStep, hd, hq]

/-- Characterization: a passing step decrements and saves the dish, adds its
price contribution, and records the reservation. -/
theorem presaveStep_ok (st : HookState) (item : LineItem) (d : Dish)
    (hd : findById st.store item.dish = some d) (hq : ¬ d.inventory < item.quantity) :
    presaveStep st item =
      { store := saveDish st.store item.dish { d with inventory := d.inventory - item.quantity }
        failed := st.failed
        totalPrice := st.totalPrice + d.price * item.quantity
        reserved := st.reserved ++ [(item.dish, item.quantity)] } := by
  simp [presaveStep, hd, hq]

/-- Once an item has reported failure, the flag stays set for the rest of the
loop. -/
theorem presave_failed_monotone (items : List LineItem) (st : HookState)
    (h : st.failed = true) : (items.foldl presaveStep st).failed = true := by
  induction items generalizing st with
  | nil => exact h
  | cons item rest ih =>
    rw [List.foldl_cons]
    apply ih
    rcases hd : findById st.store item.dish with _ | d
    · rw [presaveStep_notFound st item hd]
    · by_cases hq : d.inventory < item.quantity
      · rw [presaveStep_short st item d hd hq]
      · rw [presaveStep_ok st item d hd hq]
        exact h

/-- One hook step never changes any catalog price: it only rewrites the
inventory of the dish it saves. -/
theorem priceOf_presaveStep (st : HookState) (item : LineItem) (i : Nat) :
    priceOf (presaveStep st item).store i = priceOf st.store i := by
  rcases hd : findById st.store item.dish with _ | d
  · rw [presaveStep_notFound st item hd]
  · by_cases hq : d.inventory < item.quantity
    · rw [presaveStep_short st item d hd hq]
    · rw [presaveStep_ok st item d hd hq]
      unfold findById at hd
      by_cases hi : i = item.dish
      · subst hi
        simp [priceOf, findById, saveDish, hd]
      · simp [priceOf, findById, saveDish, hi]

/-- The whole hook loop never changes any catalog price. -/
theorem priceOf_fold (items : List LineItem) (st : HookState) (i : Nat) :
    priceOf ((items.foldl presaveStep st).store) i = priceOf st.store i := by
  induction items generalizing st with
  | nil => rfl
  | cons item rest ih =>
    rw [List.foldl_cons, ih (presaveStep st item), priceOf_presaveStep st item i]

/-- Two stores with the same prices give the same line-item total. -/
theorem lineItemsTotal_congr (s1 s2 : Store)
    (h : ∀ i, priceOf s1 i = priceOf s2 i) (items : List LineItem) :
    lineItemsTotal s1 items = lineItemsTotal s2 items := by
  induction items with
  | nil => rfl
  | cons item rest ih =>
    unfold lineItemsTotal
    rw [h item.dish, ih]

/-- When the hook loop reports no failure, the accumulated total equals the
initial accumulator plus the sum of `price * quantity` over the items, with
prices read in the store the loop started from. -/
theorem totalPrice_fold (items : List LineItem) (st : HookState)
    (h : (items.foldl presaveStep st).failed = false) :
    (items.foldl presaveStep st).totalPrice = st.totalPrice + lineItemsTotal st.store items := by
  induction items generalizing st with
  | nil => simp [lineItemsTotal]
  | cons item rest ih =>
    rw [List.foldl_cons] at h ⊢
    rcases hd : findById st.store item.dish with _ | d
    · rw [presaveStep_notFound st item hd] at h
      have hmono := presave_failed_monotone rest { st with failed := true } rfl
      rw [h] at hmono
      exact absurd hmono (by decide)
    · by_cases hq : d.inventory < item.quantity
      · rw [presaveStep_short st item d hd hq] at h
        have hmono := presave_failed_monotone rest { st with failed := true } rfl
        rw [h] at hmono
        exact absurd hmono (by decide)
      · rw [presaveStep_ok st item d hd hq] at h ⊢
        rw [ih _ h]
        have hcongr : lineItemsTotal
            (saveDish st.store item.dish { d with inventory := d.inventory - item.quantity }) rest
            = lineItemsTotal st.store rest := by
          refine lineItemsTotal_congr _ _ (fun i => ?_) rest
          have hstep := priceOf_presaveStep st item i
          rw [presaveStep_ok st item d hd hq] at hstep
          exact hstep
        have hpd : priceOf st.store item.dish = d.price := by
          unfold priceOf
          rw [hd]
        have hcons : lineItemsTotal st.store (item :: rest)
            = priceOf st.store item.dish * item.quantity + lineItemsTotal st.store rest := rfl
        dsimp only
        rw [hcongr, hcons, hpd]
        ring

/-- Claim C3, confirmed: every successfully placed order has
`totalPrice = (sum over line items of dish.price * quantity) + 30` when it is
not self-collection, and no surcharge when it is, with dish prices read in
the catalog the attempt started from. -/
theorem claim3_total_price (now : Int) (s : Store) (inp : OrderInput)
    (s2 : Store) (o : Order) (h : placeOrder now s inp = (s2, some o)) :
    o.totalPrice = lineItemsTotal s inp.dishes + (if inp.isSelfCollection then 0 else 30) := by
  unfold placeOrder at h
  split at h
  · split at h
    · rw [Prod.mk.injEq] at h
      exact Option.noConfusion h.2
    · rw [Prod.mk.injEq] at h
      obtain ⟨h1, h2⟩ := h
      injection h2 with h2
      subst h2
      dsimp only
      rename_i hnf
      have hf : (runPresave s inp.dishes).failed = false := by
        simpa using hnf
      have ht := totalPrice_fold inp.dishes
        { store := s, failed := false, totalPrice := 0, reserved := [] } hf
      unfold runPresave
      rw [ht]
      dsimp only
      ring
  · rw [Prod.mk.injEq] at h
    exact Option.noConfusion h.2

/-- The delivery-case pricing example: line items (price 10, qty 2) and
(price 5, qty 1) with the delivery surcharge give total 55. -/
def inpDel : OrderInput :=
  { dishes := [⟨0, 2⟩, ⟨1, 1⟩], isSelfCollection := false,
    orderScheduled := some (2 * hourMs) }

/-- The self-collection pricing example input: same line items, no surcharge. -/
def inpSelf : OrderInput :=
  { dishes := [⟨0, 2⟩, ⟨1, 1⟩], isSelfCollection := true,
    orderScheduled := some (2 * hourMs) }

/-- The order produced by the delivery-case pricing example. -/
def orderDel55 : Order :=
  { dishes := [⟨0, 2⟩, ⟨1, 1⟩], isSelfCollection := false,
    orderScheduled := 2 * hourMs, totalPrice := 55, isItDone := false }

/-- The order produced by the self-collection pricing example. -/
def orderSelf25 : Order :=
  { dishes := [⟨0, 2⟩, ⟨1, 1⟩], isSelfCollection := true,
    orderScheduled := 2 * hourMs, totalPrice := 25, isItDone := false }

/-- Witness for claim C3 at the spec's pricing example: totals 55 with
delivery and 25 with self-collection. -/
theorem claim3_total_price_witness :
    placeOrder 0 storePrices inpDel
      = ((runPresave storePrices inpDel.dishes).store, some orderDel55) ∧
    orderDel55.totalPrice
      = lineItemsTotal storePrices inpDel.dishes + (if inpDel.isSelfCollection then 0 else 30) ∧
    orderDel55.totalPrice = 55 ∧
    placeOrder 0 storePrices inpSelf
      = ((runPresave storePrices inpSelf.dishes).store, some orderSelf25) ∧
    orderSelf25.totalPrice
      = lineItemsTotal storePrices inpSelf.dishes + (if inpSelf.isSelfCollection then 0 else 30) ∧
    orderSelf25.totalPrice = 25 := by
  refine ⟨rfl,
    claim3_total_price 0 storePrices inpDel (runPresave storePrices inpDel.dishes).store
      orderDel55 rfl,
    rfl, rfl,
    claim3_total_price 0 storePrices inpSelf (runPresave storePrices inpSelf.dishes).store
      orderSelf25 rfl,
    rfl⟩

/-! Non-negativity of inventory: every write the hook performs is
`inventory - quantity` guarded by the failed check `inventory < quantity`,
and the (spec-modelled) release only adds, so no operation drives a stock
count below zero. -/

/-- One hook step preserves non-negativity of every stocked dish. -/
theorem nonneg_presaveStep (st : HookState) (item : LineItem)
    (h : ∀ j e, findById st.store j = some e → 0 ≤ e.inventory) :
    ∀ j e, findById (presaveStep st item).store j = some e → 0 ≤ e.inventory := by
  intro j e hj
  rcases hd : findById st.store item.dish with _ | d
  · rw [presaveStep_notFound st item hd] at hj
    exact h j e hj
  · by_cases hq : d.inventory < item.quantity
    · rw [presaveStep_short st item d hd hq] at hj
      exact h j e hj
    · rw [presaveStep_ok st item d hd hq] at hj
      unfold findById saveDish at hj
      dsimp only at hj
      by_cases hji : j = item.dish
      · rw [if_pos hji] at hj
        injection hj with hj
        subst hj
        dsimp only
        omega
      · rw [if_neg hji] at hj
        exact h j e hj

/-- The whole hook loop preserves non-negativity of every stocked dish. -/
theorem nonneg_fold (items : List LineItem) (st : HookState)
    (h : ∀ j e, findById st.store j = some e → 0 ≤ e.inventory) :
    ∀ j e, findById ((items.foldl presaveStep st).store) j = some e → 0 ≤ e.inventory := by
  induction items generalizing st with
  | nil => exact h
  | cons item rest ih =>
    rw [List.foldl_cons]
    exact ih (presaveStep st item) (nonneg_presaveStep st item h)

/-- An order placement, whether it succeeds, fails validation, or fails in
the hook, preserves non-negativity of every stocked dish. -/
theorem nonneg_placeOrder (now : Int) (s : Store) (inp : OrderInput)
    (h : ∀ j e, findById s j = some e → 0 ≤ e.inventory) :
    ∀ j e, findById (placeOrder now s inp).1 j = some e → 0 ≤ e.inventory := by
  intro j e hj
  unfold placeOrder at hj
  split at hj
  · split at hj
    · exact nonneg_fold inp.dishes
        { store := s, failed := false, totalPrice := 0, reserved := [] } h j e hj
    · exact nonneg_fold inp.dishes
        { store := s, failed := false, totalPrice := 0, reserved := [] } h j e hj
  · exact h j e hj

/-- A compensating release preserves non-negativity of every stocked dish. -/
theorem nonneg_release (s : Store) (i : Nat) (qty : Nat)
    (h : ∀ j e, findById s j = some e → 0 ≤ e.inventory) :
    ∀ j e, findById (release s i qty) j = some e → 0 ≤ e.inventory := by
  intro j e hj
  unfold release at hj
  rcases hd : findById s i with _ | d
  · rw [hd] at hj
    exact h j e hj
  · rw [hd] at hj
    unfold findById saveDish at hj
    dsimp only at hj
    by_cases hji : j = i
    · rw [if_pos hji] at hj
      injection hj with hj
      subst hj
      have hdi := h i d hd
      dsimp only
      omega
    · rw [if_neg hji] at hj
      exact h j e hj

/-- Claim C6, confirmed: starting from a catalog whose stock counts are all
non-negative, any sequence of order placements and compensating releases
leaves every stocked dish with a non-negative inventory. -/
theorem claim6_inventory_nonneg (s : Store) (ops : List SysOp)
    (hs : ∀ j e, findById s j = some e → 0 ≤ e.inventory)
    (i : Nat) (d : Dish) (hd : findById (runOps s ops) i = some d) :
    0 ≤ d.inventory := by
  unfold runOps at hd
  induction ops generalizing s with
  | nil => exact hs i d hd
  | cons op rest ih =>
    rw [List.foldl_cons] at hd
    refine ih (applyOp s op) ?_ hd
    cases op with
    | place now inp => exact nonneg_placeOrder now s inp hs
    | rel k qty => exact nonneg_release s k qty hs

/-- The C6 witness input: an order for 3 units of dish 0. -/
def inpC6 : OrderInput :=
  { dishes := [⟨0, 3⟩], isSelfCollection := true,
    orderScheduled := some (2 * hourMs) }

/-- The operation sequence of the C6 witness: one successful placement of 3
units of dish 0 followed by a compensating release of 1 unit. -/
def opsC6 : List SysOp := [SysOp.place 0 inpC6, SysOp.rel 0 1]

/-- Witness for claim C6: after placing an order for 3 units of dish A and
releasing 1, dish A's stock is 8, and the theorem yields its non-negativity
from the non-negativity of the initial catalog. -/
theorem claim6_inventory_nonneg_witness :
    findById (runOps storeAB opsC6) 0 = some { name := "A", price := 10, inventory := 8 } ∧
    0 ≤ Dish.inventory { name := "A", price := 10, inventory := 8 } := by
  have hs : ∀ j e, findById storeAB j = some e → 0 ≤ e.inventory := by
    intro j e hj
    unfold findById storeAB at hj
    split at hj
    · injection hj with hj
      subst hj
      decide
    · split at hj
      · injection hj with hj
        subst hj
        decide
      · exact Option.noConfusion hj
  exact ⟨rfl, claim6_inventory_nonneg storeAB opsC6 hs 0
    { name := "A", price := 10, inventory := 8 } rfl⟩

/-- Claim C8, confirmed for the spec-modelled completion update: setting the
completion flag through `DataAccess.updateById` touches no dish inventory
(the dish store passes through untouched and the pre-save hook does not run),
and every stored order keeps its line items, total price and scheduled time;
the updated order changes at most its completion flag, every other order is
returned unchanged. -/
theorem claim8_order_immutable (s : Store) (os : OrderStore) (i : Nat) (b : Bool)
    (j : Nat) (o o2 : Order) (ho : os j = some o)
    (h : (setCompletion s os i b).2.1 j = some o2) :
    (setCompletion s os i b).1 = s ∧
    o2.dishes = o.dishes ∧ o2.totalPrice = o.totalPrice ∧
    o2.orderScheduled = o.orderScheduled ∧
    ((j = i ∧ o2.isItDone = b) ∨ (j ≠ i ∧ o2 = o)) := by
  unfold setCompletion updateById at h
  dsimp only at h
  rcases hi : os i with _ | oi
  · rw [hi] at h
    dsimp only at h
    rw [ho] at h
    injection h with h
    subst h
    have hji : j ≠ i := by
      intro hji
      rw [hji, hi] at ho
      exact Option.noConfusion ho
    exact ⟨rfl, rfl, rfl, rfl, Or.inr ⟨hji, rfl⟩⟩
  · rw [hi] at h
    dsimp only at h
    by_cases hji : j = i
    · rw [if_pos hji] at h
      injection h with h
      subst h
      rw [hji, hi] at ho
      injection ho with ho
      subst ho
      exact ⟨rfl, rfl, rfl, rfl, Or.inl ⟨hji, rfl⟩⟩
    · rw [if_neg hji] at h
      rw [ho] at h
      injection h with h
      subst h
      exact ⟨rfl, rfl, rfl, rfl, Or.inr ⟨hji, rfl⟩⟩

/-- A persisted order used by the C8 witness. -/
def order0 : Order :=
  { dishes := [⟨0, 1⟩], isSelfCollection := true, orderScheduled := 2 * hourMs,
    totalPrice := 10, isItDone := false }

/-- The order collection holding only `order0` under id 0. -/
def orderStore0 : OrderStore := fun j => if j = 0 then some order0 else none

/-- Witness for claim C8: marking `order0` done yields the same order with
only the completion flag flipped, and the dish catalog is untouched. -/
theorem claim8_order_immutable_witness :
    orderStore0 0 = some order0 ∧
    (setCompletion storeAB orderStore0 0 true).2.1 0
      = some { order0 with isItDone := true } ∧
    ((setCompletion storeAB orderStore0 0 true).1 = storeAB ∧
      Order.dishes { order0 with isItDone := true } = order0.dishes ∧
      Order.totalPrice { order0 with isItDone := true } = order0.totalPrice ∧
      Order.orderScheduled { order0 with isItDone := true } = order0.orderScheduled ∧
      (((0 : Nat) = 0 ∧ Order.isItDone { order0 with isItDone := true } = true) ∨
        ((0 : Nat) ≠ 0 ∧ { order0 with isItDone := true } = order0))) :=
  ⟨rfl, rfl,
    claim8_order_immutable storeAB orderStore0 0 true 0 order0
      { order0 with isItDone := true } rfl rfl⟩

/-- Claim C9, confirmed: a placement that omits the scheduled time gets the
schema default `now + 1 hour + 1 minute`, which lies strictly inside the
eligibility window and passes the validator, so (when the line items
reserve successfully) the order is accepted with that default rather than
rejected for a missing schedule. -/
theorem claim9_default_schedule (now : Int) (s : Store) (inp : OrderInput)
    (h0 : inp.orderScheduled = none)
    (h1 : (runPresave s inp.dishes).failed = false) :
    defaultScheduled now = now + hourMs + minuteMs ∧
    now + hourMs < defaultScheduled now ∧
    defaultScheduled now < now + 6 * hourMs ∧
    validateScheduled now (defaultScheduled now) = true ∧
    (placeOrder now s inp).2
      = some { dishes := inp.dishes, isSelfCollection := inp.isSelfCollection,
               orderScheduled := defaultScheduled now,
               totalPrice := (runPresave s inp.dishes).totalPrice
                 + (if inp.isSelfCollection then 0 else 30),
               isItDone := false } := by
  have hv : validateScheduled now (defaultScheduled now) = true := by
    unfold validateScheduled defaultScheduled hourMs minuteMs
    simp
    omega
  refine ⟨rfl, ?_, ?_, hv, ?_⟩
  · unfold defaultScheduled hourMs minuteMs
    omega
  · unfold defaultScheduled hourMs minuteMs
    omega
  · unfold placeOrder
    rw [h0]
    simp only [Option.getD]
    rw [hv, if_pos rfl, h1]
    simp

/-- The C9 witness input: one unit of dish 0, self-collection, no scheduled
time supplied. -/
def inpNoSched : OrderInput :=
  { dishes := [⟨0, 1⟩], isSelfCollection := true, orderScheduled := none }

/-- Witness for claim C9 at time 0 against the two-dish catalog: the order is
accepted with scheduled time 3660000 ms = 1 hour + 1 minute. -/
theorem claim9_default_schedule_witness :
    inpNoSched.orderScheduled = none ∧
    (runPresave storeAB inpNoSched.dishes).failed = false ∧
    (placeOrder 0 storeAB inpNoSched).2
      = some { dishes := inpNoSched.dishes, isSelfCollection := inpNoSched.isSelfCollection,
               orderScheduled := defaultScheduled 0,
               totalPrice := (runPresave storeAB inpNoSched.dishes).totalPrice
                 + (if inpNoSched.isSelfCollection then 0 else 30),
               isItDone := false } :=
  ⟨rfl, rfl, (claim9_default_schedule 0 storeAB inpNoSched rfl rfl).2.2.2.2⟩

end Gastronome
